import Mathlib

/-!
Verification of the ratio computation engine of `final.py` (class
`FinanceMetrics` together with the numeric-safety primitives `safe_divide`
and `extract_float`), via a shallow embedding.

Modelling conventions:
* Python floats are modelled by `PyFloat`: an exact rational for finite
  values, plus explicit NaN and signed-infinity constructors.  The `np.nan`
  module constant is a particular float object; Python's `x in (0, np.nan,
  None)` test compares by object identity first and numeric equality second,
  so a NaN float that is a different object from `np.nan` is NOT caught by
  that test.  The embedding therefore distinguishes `npNan` (the singleton
  object) from `otherNan` (any other NaN float).
* Finite-by-finite division with a non-zero divisor is modelled exactly on
  rationals (float rounding/overflow is not modelled).
* A record cell is a number, a string that `float()` parses, or a string on
  which `float()` raises (carrying `str(e)`).
* Mutation of `self.metrics` and of the module-global `error_log` is
  modelled by explicit state passing: every metric method maps a pair
  (metrics so far, log so far) to its successor, in source order.
-/

inductive PyFloat : Type
  | finite : ℚ → PyFloat
  | npNan : PyFloat
  | otherNan : PyFloat
  | inf : PyFloat
  | ninf : PyFloat
deriving DecidableEq, Repr

/-- `pd.isna` on a float value: true exactly for NaN. -/
def PyFloat.isNan : PyFloat → Bool
  | npNan => true
  | otherNan => true
  | _ => false

def PyFloat.isFinite : PyFloat → Bool
  | finite _ => true
  | _ => false

/-- Python float division inside a `try` block; `none` models a raised
`ZeroDivisionError` (zero divisor, even for NaN or infinite numerators). -/
def pyDivExc (a b : PyFloat) : Option PyFloat :=
  match b with
  | .finite q =>
      if q = 0 then none
      else
        match a with
        | .finite p => some (.finite (p / q))
        | .npNan => some .otherNan
        | .otherNan => some .otherNan
        | .inf => some (if q < 0 then .ninf else .inf)
        | .ninf => some (if q < 0 then .inf else .ninf)
  | .npNan => some .otherNan
  | .otherNan => some .otherNan
  | .inf | .ninf =>
      match a with
      | .finite _ => some (.finite 0)
      | _ => some .otherNan

/-- Python float subtraction (used by `rev - cogs`); total, never raises. -/
def pySub (a b : PyFloat) : PyFloat :=
  match a, b with
  | .finite p, .finite q => .finite (p - q)
  | .npNan, _ => .otherNan
  | .otherNan, _ => .otherNan
  | _, .npNan => .otherNan
  | _, .otherNan => .otherNan
  | .inf, .inf => .otherNan
  | .inf, _ => .inf
  | .ninf, .ninf => .otherNan
  | .ninf, _ => .ninf
  | .finite _, .inf => .ninf
  | .finite _, .ninf => .inf

/-- Python `val * 100` on a float (the `(%)` metrics scale). -/
def pyMul100 : PyFloat → PyFloat
  | .finite q => .finite (q * 100)
  | .npNan => .otherNan
  | .otherNan => .otherNan
  | .inf => .inf
  | .ninf => .ninf

/-- One cell of the normalized record: a numeric value, a string `float()`
parses to the given value, or a string on which `float()` raises (the
payload is `str(e)`). -/
inductive Cell : Type
  | num : PyFloat → Cell
  | strNum : PyFloat → Cell
  | strBad : String → Cell
deriving DecidableEq, Repr

/-- `float()` applied to a string builds a fresh float object, so a NaN
obtained this way is never the `np.nan` singleton. -/
def freshFloat : PyFloat → PyFloat
  | .npNan => .otherNan
  | f => f

abbrev Diag := List String
abbrev Row := List (String × Cell)
abbrev Metrics := List (String × Option PyFloat)

/-- `key in dict` / `dict[key]` lookup over an association list. -/
def dictFind {α : Type} (k : String) : List (String × α) → Option α
  | [] => none
  | (k', v) :: rest => if k' = k then some v else dictFind k rest

/-- Python dict assignment `d[k] = v`: update in place when the key exists
(keeping its position), otherwise append at the end. -/
def dictSet {α : Type} (m : List (String × α)) (k : String) (v : α) :
    List (String × α) :=
  match m with
  | [] => [(k, v)]
  | (k', v') :: rest =>
      if k' = k then (k', v) :: rest else (k', v') :: dictSet rest k v

/-- `self.metrics.get(k)`: `None` both when the key is absent and when it is
present with value `None`. -/
def pyGet (m : Metrics) (k : String) : Option PyFloat :=
  (dictFind k m).getD none

def msgTypeErr : String :=
  "unsupported operand type(s) for /: 'NoneType' and 'float'"

def msgZeroDiv : String := "float division by zero"

/-- The guard `denom in (0, np.nan, None)` of `safe_divide`: `None` and the
`np.nan` object are caught by identity, `0` by numeric equality; any other
NaN object is NOT caught (NaN compares unequal to everything). -/
def denomTrapped : Option PyFloat → Bool
  | none => true
  | some (.finite q) => decide (q = 0)
  | some .npNan => true
  | some _ => false

/-- `safe_divide(numer, denom, err_msg)` from final.py: returns the pair
(result, entries appended to the global error_log). -/
def safe_divide (numer denom : Option PyFloat) (err_msg : Option String) :
    Option PyFloat × Diag :=
  if denomTrapped denom then
    (none,
      match err_msg with
      | some m => if m = "" then [] else [m]
      | none => [])
  else
    match numer, denom with
    | some n, some d =>
        match pyDivExc n d with
        | some v => (some v, [])
        | none => (none, ["Division failed: " ++ msgZeroDiv])
    | none, some _ => (none, ["Division failed: " ++ msgTypeErr])
    | _, none => (none, [])

/-- `extract_float(row, key, source_name)` from final.py: returns the pair
(value, entries appended to the global error_log).  An absent key leaves
`val = None` silently; `pd.isna` silently maps a NaN numeric cell to `None`;
a string cell is handed to `float()`, whose failure is the only case that
logs a diagnostic. -/
def extract_float (row : Row) (key source_name : String) :
    Option PyFloat × Diag :=
  match dictFind key row with
  | none => (none, [])
  | some (.num f) => if f.isNan then (none, []) else (some f, [])
  | some (.strNum f) => (some (freshFloat f), [])
  | some (.strBad e) =>
      (none, [source_name ++ ": Could not parse '" ++ key ++ "': " ++ e])

/-- Common shape of `compute_pe_ratio` / `compute_pb_ratio` /
`compute_ps_ratio`: extract one field, return early when it is `None`, else
store `safe_divide(self.market_price, field, note)` under `name`. -/
def priceStep (name key ctx note : String) (row : Row) (price : PyFloat)
    (st : Metrics × Diag) : Metrics × Diag :=
  match extract_float row key ctx with
  | (none, d) => (st.1, st.2 ++ d)
  | (some v, d) =>
      match safe_divide (some price) (some v) (some note) with
      | (val, d2) => (dictSet st.1 name val, st.2 ++ d ++ d2)

/-- Common shape of the two-field metric methods: extract both fields,
return early when either is `None`, else store
`safe_divide(fn a b, fd a b, note)`, scaled by 100 when the metric is a
percentage (`val * 100 if val is not None else None`). -/
def pairStep (name k1 k2 ctx note : String)
    (fn fd : PyFloat → PyFloat → PyFloat) (scale : Bool) (row : Row)
    (st : Metrics × Diag) : Metrics × Diag :=
  match extract_float row k1 ctx, extract_float row k2 ctx with
  | (some a, d1), (some b, d2) =>
      match safe_divide (some (fn a b)) (some (fd a b)) (some note) with
      | (val, d3) =>
          (dictSet st.1 name (if scale then val.map pyMul100 else val),
           st.2 ++ d1 ++ d2 ++ d3)
  | (_, d1), (_, d2) => (st.1, st.2 ++ d1 ++ d2)

def compute_pe (row : Row) (price : PyFloat) (st : Metrics × Diag) :
    Metrics × Diag :=
  priceStep "P/E Ratio" "EPS" "P/E" "P/E: EPS is zero or missing" row price st

def compute_pb (row : Row) (price : PyFloat) (st : Metrics × Diag) :
    Metrics × Diag :=
  priceStep "P/B Ratio" "Book Value Per Share" "P/B"
    "P/B: Book Value Per Share is zero or missing" row price st

def compute_ps (row : Row) (price : PyFloat) (st : Metrics × Diag) :
    Metrics × Diag :=
  priceStep "P/S Ratio" "Revenue Per Share" "P/S"
    "P/S: Revenue Per Share is zero or missing" row price st

/-- `compute_peg_ratio`: reads the stored "P/E Ratio" metric with
`self.metrics.get` (it does not re-extract EPS), extracts the growth field
(logging side effect included) BEFORE the early-return test, then divides. -/
def compute_peg (row : Row) (st : Metrics × Diag) : Metrics × Diag :=
  match pyGet st.1 "P/E Ratio",
        extract_float row "EPS Growth Rate (%)" "PEG" with
  | some pe, (some g, d) =>
      match safe_divide (some pe) (some g)
              (some "PEG: Growth rate is zero or missing") with
      | (val, d2) => (dictSet st.1 "PEG Ratio" val, st.2 ++ d ++ d2)
  | _, (_, d) => (st.1, st.2 ++ d)

def compute_gross_margin (row : Row) (st : Metrics × Diag) :
    Metrics × Diag :=
  pairStep "Gross Profit Margin (%)" "Revenue" "COGS" "Gross Margin"
    "Gross Margin: Revenue zero" (fun a b => pySub a b) (fun a _ => a)
    true row st

def compute_operating_margin (row : Row) (st : Metrics × Diag) :
    Metrics × Diag :=
  pairStep "Operating Margin (%)" "Operating Income" "Revenue"
    "Operating Margin" "Operating Margin: Revenue zero" (fun a _ => a)
    (fun _ b => b) true row st

def compute_net_margin (row : Row) (st : Metrics × Diag) : Metrics × Diag :=
  pairStep "Net Profit Margin (%)" "Net Income" "Revenue" "Net Margin"
    "Net Margin: Revenue zero" (fun a _ => a) (fun _ b => b) true row st

def compute_current (row : Row) (st : Metrics × Diag) : Metrics × Diag :=
  pairStep "Current Ratio" "Current Assets" "Current Liabilities"
    "Current Ratio" "Current Ratio: Liabilities zero" (fun a _ => a)
    (fun _ b => b) false row st

def compute_debt_to_equity (row : Row) (st : Metrics × Diag) :
    Metrics × Diag :=
  pairStep "Debt to Equity Ratio" "Total Debt" "Total Equity" "Debt/Equity"
    "Debt/Equity: Equity zero" (fun a _ => a) (fun _ b => b) false row st

def compute_roe (row : Row) (st : Metrics × Diag) : Metrics × Diag :=
  pairStep "Return on Equity (%)" "Net Income"
    "Average Shareholders Equity" "ROE" "ROE: Equity zero" (fun a _ => a)
    (fun _ b => b) true row st

def compute_roa (row : Row) (st : Metrics × Diag) : Metrics × Diag :=
  pairStep "Return on Assets (%)" "Net Income" "Average Total Assets" "ROA"
    "ROA: Assets zero" (fun a _ => a) (fun _ b => b) true row st

/-- `FinanceMetrics.__init__`: the metrics dict starts with the raw market
price. -/
def initMetrics (price : PyFloat) : Metrics := [("Market Price", some price)]

/-- `FinanceMetrics.compute()` applied to one record row, with the metric
methods chained in source order, starting from a given (metrics, log). -/
def computeSteps (row : Row) (price : PyFloat) (st : Metrics × Diag) :
    Metrics × Diag :=
  compute_roa row (compute_roe row (compute_debt_to_equity row
    (compute_current row (compute_net_margin row
      (compute_operating_margin row (compute_gross_margin row
        (compute_peg row (compute_ps row price (compute_pb row price
          (compute_pe row price st))))))))))

/-- One whole engine pass over a record row: fresh metrics dict (holding the
market price) and the entries appended to the error log. -/
def runRow (row : Row) (price : PyFloat) : Metrics × Diag :=
  computeSteps row price (initMetrics price, [])

/-- The value accepted by `FinanceMetrics.__init__`: a pandas DataFrame
(list of rows) or the dict produced from XML. -/
inductive Data : Type
  | frame : List Row → Data
  | dict : Row → Data
deriving DecidableEq, Repr

def msgIloc : String := "single positional indexer is out-of-bounds"

/-- `FinanceMetrics.data_row`: first row of the DataFrame or the dict
itself; `self.data.iloc[0]` raises IndexError on an empty frame, modelled
as `none`. -/
def data_row : Data → Option Row
  | .frame [] => none
  | .frame (r :: _) => some r
  | .dict r => some r

/-- `FinanceMetrics(data, price).compute()` with the module-global
`error_log` initially holding `g`; an exception escaping `compute` is an
`Except.error` carrying its message (the only uncaught raise point is
`data_row` on an empty DataFrame, hit inside the first metric method). -/
def FinanceMetrics.compute (d : Data) (price : PyFloat) (g : Diag) :
    Except String (Metrics × Diag) :=
  match data_row d with
  | none => .error msgIloc
  | some row => .ok (computeSteps row price (initMetrics price, g))

/-- One press of the "Compute Metrics" button (final.py lines 272-279):
`error_log = []` resets the module-global log, then a fresh FinanceMetrics
object is built and `compute()` runs.  `prevLog` is the global log carried
over from before the press; the reset discards it. -/
def buttonRun (d : Data) (price : PyFloat) (prevLog : Diag) :
    Except String (Metrics × Diag) :=
  let _ := prevLog
  FinanceMetrics.compute d price []

/-- `str()` of a float for the text report.  The exact digits Python would
print are irrelevant to the claims; only that a present value is printed
and a present `None` prints the `N/A` sentinel. -/
def showPy : PyFloat → String
  | .finite q => toString q.num ++ "/" ++ toString q.den
  | .npNan => "nan"
  | .otherNan => "nan"
  | .inf => "inf"
  | .ninf => "-inf"

/-- One line of the "=== Calculated Metrics ===" block of the text report:
`f"{k}: {val}"` with `val = v if v is not None else "N/A"`. -/
def reportLine : String × Option PyFloat → String
  | (k, some v) => k ++ ": " ++ showPy v
  | (k, none) => k ++ ": N/A"

/-- The metrics block of the text report: one line per entry of
`fin.metrics.items()` — absent keys produce no line at all. -/
def reportLines (m : Metrics) : List String := m.map reportLine

/-- A cell whose extraction can only yield a finite value or `None`: numeric
NaN cells are filtered by `pd.isna`, but numeric infinities and strings
coercing to NaN or infinity pass straight through `extract_float`. -/
def cellOk : Cell → Bool
  | .num .inf => false
  | .num .ninf => false
  | .num _ => true
  | .strNum (.finite _) => true
  | .strNum _ => false
  | .strBad _ => true

def rowOk (row : Row) : Bool := row.all fun p => cellOk p.2

/-- Every metric value present (non-None) in the metrics dict is finite. -/
def MetricsFinite (m : Metrics) : Prop :=
  ∀ k v, dictFind k m = some (some v) → v.isFinite = true

/-! ### Dictionary lemmas -/

theorem dictFind_dictSet_self {α : Type} (m : List (String × α)) (k : String)
    (v : α) : dictFind k (dictSet m k v) = some v := by
  induction m with
  | nil => simp [dictSet, dictFind]
  | cons p rest ih =>
      obtain ⟨k', v'⟩ := p
      by_cases h : k' = k
      · simp [dictSet, dictFind, h]
      · simp [dictSet, dictFind, h, ih]

theorem dictFind_dictSet_ne {α : Type} (m : List (String × α))
    {k k' : String} (v : α) (h : k' ≠ k) :
    dictFind k' (dictSet m k v) = dictFind k' m := by
  have hk : ¬ k = k' := fun e => h e.symm
  induction m with
  | nil => simp [dictSet, dictFind, hk]
  | cons p rest ih =>
      obtain ⟨ka, va⟩ := p
      by_cases hka : ka = k
      · subst hka
        simp [dictSet, dictFind, hk]
      · simp [dictSet, hka, dictFind, ih]

/-! ### Extraction and division lemmas -/

theorem extract_diag_len (row : Row) (key c : String) :
    (extract_float row key c).2.length ≤ 1 := by
  cases hf : dictFind key row with
  | none => simp [extract_float, hf]
  | some cell =>
      cases cell with
      | num f => by_cases hn : f.isNan <;> simp [extract_float, hf, hn]
      | strNum f => simp [extract_float, hf]
      | strBad e => simp [extract_float, hf]

theorem extract_some_no_diag (row : Row) (key c : String) {v : PyFloat}
    (h : (extract_float row key c).1 = some v) :
    (extract_float row key c).2 = [] := by
  cases hf : dictFind key row with
  | none => simp [extract_float, hf] at h
  | some cell =>
      cases cell with
      | num f =>
          by_cases hn : f.isNan
          · simp [extract_float, hf, hn] at h
          · simp [extract_float, hf, hn]
      | strNum f => simp [extract_float, hf]
      | strBad e => simp [extract_float, hf] at h

theorem safe_divide_diag_len (n d : Option PyFloat) (e : Option String) :
    (safe_divide n d e).2.length ≤ 1 := by
  by_cases ht : denomTrapped d = true
  · rcases e with _ | ⟨m⟩
    · simp [safe_divide, ht]
    · by_cases hm : m = "" <;> simp [safe_divide, ht, hm]
  · rcases d with _ | ⟨y⟩
    · simp [denomTrapped] at ht
    · rcases n with _ | ⟨x⟩
      · simp [safe_divide, ht]
      · cases hp : pyDivExc x y <;> simp [safe_divide, ht, hp]

theorem safe_divide_some_no_diag (n d : Option PyFloat) (e : Option String)
    {v : PyFloat} (h : (safe_divide n d e).1 = some v) :
    (safe_divide n d e).2 = [] := by
  by_cases ht : denomTrapped d = true
  · simp [safe_divide, ht] at h
  · rcases d with _ | ⟨y⟩
    · simp [denomTrapped] at ht
    · rcases n with _ | ⟨x⟩
      · simp [safe_divide, ht] at h
      · cases hp : pyDivExc x y with
        | none => simp [safe_divide, ht, hp] at h
        | some w => simp [safe_divide, ht, hp]

/-! ### Metric-step lemmas -/

theorem priceStep_find_ne {name key ctx note : String} {row : Row}
    {price : PyFloat} {st : Metrics × Diag} {k : String} (h : k ≠ name) :
    dictFind k (priceStep name key ctx note row price st).1 =
      dictFind k st.1 := by
  unfold priceStep
  cases he : extract_float row key ctx with
  | mk v d =>
      cases v with
      | none => simp
      | some x =>
          simpa using
            dictFind_dictSet_ne st.1
              (safe_divide (some price) (some x) (some note)).1 h

theorem pairStep_find_ne {name k1 k2 ctx note : String}
    {fn fd : PyFloat → PyFloat → PyFloat} {scale : Bool} {row : Row}
    {st : Metrics × Diag} {k : String} (h : k ≠ name) :
    dictFind k (pairStep name k1 k2 ctx note fn fd scale row st).1 =
      dictFind k st.1 := by
  unfold pairStep
  cases he1 : extract_float row k1 ctx with
  | mk a d1 =>
      cases he2 : extract_float row k2 ctx with
      | mk b d2 =>
          cases a with
          | none => cases b <;> simp
          | some x =>
              cases b with
              | none => simp
              | some y =>
                  simpa using dictFind_dictSet_ne st.1
                    (if scale then
                      (safe_divide (some (fn x y)) (some (fd x y))
                        (some note)).1.map pyMul100
                     else
                      (safe_divide (some (fn x y)) (some (fd x y))
                        (some note)).1) h

theorem compute_peg_find_ne {row : Row} {st : Metrics × Diag} {k : String}
    (h : k ≠ "PEG Ratio") :
    dictFind k (compute_peg row st).1 = dictFind k st.1 := by
  unfold compute_peg
  cases hp : pyGet st.1 "P/E Ratio" with
  | none =>
      cases he : extract_float row "EPS Growth Rate (%)" "PEG" with
      | mk g d => cases g <;> simp
  | some pe =>
      cases he : extract_float row "EPS Growth Rate (%)" "PEG" with
      | mk g d =>
          cases g with
          | none => simp
          | some gv =>
              simpa using
                dictFind_dictSet_ne st.1
                  (safe_divide (some pe) (some gv)
                    (some "PEG: Growth rate is zero or missing")).1 h

theorem priceStep_skip {name key ctx note : String} {row : Row}
    {price : PyFloat} {st : Metrics × Diag}
    (h : (extract_float row key ctx).1 = none) :
    priceStep name key ctx note row price st =
      (st.1, st.2 ++ (extract_float row key ctx).2) := by
  unfold priceStep
  cases he : extract_float row key ctx with
  | mk v d =>
      rw [he] at h
      cases v with
      | none => simp
      | some x => simp at h

theorem compute_peg_skip {row : Row} {st : Metrics × Diag}
    (h : pyGet st.1 "P/E Ratio" = none ∨
      (extract_float row "EPS Growth Rate (%)" "PEG").1 = none) :
    compute_peg row st =
      (st.1, st.2 ++ (extract_float row "EPS Growth Rate (%)" "PEG").2) := by
  unfold compute_peg
  cases hp : pyGet st.1 "P/E Ratio" with
  | none =>
      cases he : extract_float row "EPS Growth Rate (%)" "PEG" with
      | mk g d => cases g <;> simp
  | some pe =>
      cases he : extract_float row "EPS Growth Rate (%)" "PEG" with
      | mk g d =>
          rw [hp, he] at h
          cases g with
          | none => simp
          | some gv => simp at h

theorem priceStep_log_len {name key ctx note : String} {row : Row}
    {price : PyFloat} {st : Metrics × Diag} :
    (priceStep name key ctx note row price st).2.length ≤
      st.2.length + 1 := by
  unfold priceStep
  cases he : extract_float row key ctx with
  | mk v d =>
      have hd : d.length ≤ 1 := by
        have := extract_diag_len row key ctx
        rw [he] at this
        exact this
      cases v with
      | none => simp; omega
      | some x =>
          have hd0 : d = [] := by
            have := extract_some_no_diag row key ctx (v := x) (by rw [he])
            rw [he] at this
            exact this
          have h2 := safe_divide_diag_len (some price) (some x) (some note)
          subst hd0
          simp
          omega

theorem pairStep_log_len {name k1 k2 ctx note : String}
    {fn fd : PyFloat → PyFloat → PyFloat} {scale : Bool} {row : Row}
    {st : Metrics × Diag} :
    (pairStep name k1 k2 ctx note fn fd scale row st).2.length ≤
      st.2.length + 2 := by
  unfold pairStep
  cases he1 : extract_float row k1 ctx with
  | mk a d1 =>
      cases he2 : extract_float row k2 ctx with
      | mk b d2 =>
          have hd1 : d1.length ≤ 1 := by
            have := extract_diag_len row k1 ctx
            rw [he1] at this
            exact this
          have hd2 : d2.length ≤ 1 := by
            have := extract_diag_len row k2 ctx
            rw [he2] at this
            exact this
          cases a with
          | none => cases b <;> · simp; omega
          | some x =>
              cases b with
              | none => simp; omega
              | some y =>
                  have h10 : d1 = [] := by
                    have := extract_some_no_diag row k1 ctx (v := x)
                      (by rw [he1])
                    rw [he1] at this
                    exact this
                  have h20 : d2 = [] := by
                    have := extract_some_no_diag row k2 ctx (v := y)
                      (by rw [he2])
                    rw [he2] at this
                    exact this
                  have h3 := safe_divide_diag_len (some (fn x y))
                    (some (fd x y)) (some note)
                  subst h10
                  subst h20
                  simp
                  omega

theorem compute_peg_log_len {row : Row} {st : Metrics × Diag} :
    (compute_peg row st).2.length ≤ st.2.length + 1 := by
  unfold compute_peg
  cases hp : pyGet st.1 "P/E Ratio" with
  | none =>
      cases he : extract_float row "EPS Growth Rate (%)" "PEG" with
      | mk g d =>
          have hd : d.length ≤ 1 := by
            have := extract_diag_len row "EPS Growth Rate (%)" "PEG"
            rw [he] at this
            exact this
          cases g <;> · simp; omega
  | some pe =>
      cases he : extract_float row "EPS Growth Rate (%)" "PEG" with
      | mk g d =>
          have hd : d.length ≤ 1 := by
            have := extract_diag_len row "EPS Growth Rate (%)" "PEG"
            rw [he] at this
            exact this
          cases g with
          | none => simp; omega
          | some gv =>
              have h0 : d = [] := by
                have := extract_some_no_diag row "EPS Growth Rate (%)" "PEG"
                  (v := gv) (by rw [he])
                rw [he] at this
                exact this
              have h2 := safe_divide_diag_len (some pe) (some gv)
                (some "PEG: Growth rate is zero or missing")
              subst h0
              simp
              omega

theorem priceStep_success {name key ctx note : String} {row : Row}
    {price : PyFloat} {st : Metrics × Diag} {v : PyFloat}
    (hm : dictFind name st.1 = none)
    (hs : dictFind name (priceStep name key ctx note row price st).1 =
      some (some v)) :
    (priceStep name key ctx note row price st).2 = st.2 := by
  unfold priceStep at hs ⊢
  cases he : extract_float row key ctx with
  | mk a d =>
      rw [he] at hs
      cases a with
      | none => simp [hm] at hs
      | some x =>
          have hd : d = [] := by
            have := extract_some_no_diag row key ctx (v := x) (by rw [he])
            rw [he] at this
            exact this
          simp only [dictFind_dictSet_self] at hs
          cases hval : (safe_divide (some price) (some x) (some note)).1 with
          | none => rw [hval] at hs; simp at hs
          | some w =>
              have hd2 := safe_divide_some_no_diag (some price) (some x)
                (some note) hval
              subst hd
              simp [hd2]

theorem pairStep_success {name k1 k2 ctx note : String}
    {fn fd : PyFloat → PyFloat → PyFloat} {scale : Bool} {row : Row}
    {st : Metrics × Diag} {v : PyFloat}
    (hm : dictFind name st.1 = none)
    (hs : dictFind name
      (pairStep name k1 k2 ctx note fn fd scale row st).1 = some (some v)) :
    (pairStep name k1 k2 ctx note fn fd scale row st).2 = st.2 := by
  unfold pairStep at hs ⊢
  cases he1 : extract_float row k1 ctx with
  | mk a d1 =>
      cases he2 : extract_float row k2 ctx with
      | mk b d2 =>
          rw [he1, he2] at hs
          cases a with
          | none => cases b <;> simp [hm] at hs
          | some x =>
              cases b with
              | none => simp [hm] at hs
              | some y =>
                  have h10 : d1 = [] := by
                    have := extract_some_no_diag row k1 ctx (v := x)
                      (by rw [he1])
                    rw [he1] at this
                    exact this
                  have h20 : d2 = [] := by
                    have := extract_some_no_diag row k2 ctx (v := y)
                      (by rw [he2])
                    rw [he2] at this
                    exact this
                  simp only [dictFind_dictSet_self] at hs
                  cases hval : (safe_divide (some (fn x y)) (some (fd x y))
                      (some note)).1 with
                  | none => rw [hval] at hs; cases scale <;> simp at hs
                  | some w =>
                      have hd3 := safe_divide_some_no_diag (some (fn x y))
                        (some (fd x y)) (some note) hval
                      subst h10
                      subst h20
                      simp [hd3]

theorem compute_peg_success {row : Row} {st : Metrics × Diag} {v : PyFloat}
    (hm : dictFind "PEG Ratio" st.1 = none)
    (hs : dictFind "PEG Ratio" (compute_peg row st).1 = some (some v)) :
    (compute_peg row st).2 = st.2 := by
  unfold compute_peg at hs ⊢
  cases hp : pyGet st.1 "P/E Ratio" with
  | none =>
      rw [hp] at hs
      cases he : extract_float row "EPS Growth Rate (%)" "PEG" with
      | mk g d =>
          rw [he] at hs
          cases g <;> simp [hm] at hs
  | some pe =>
      rw [hp] at hs
      cases he : extract_float row "EPS Growth Rate (%)" "PEG" with
      | mk g d =>
          rw [he] at hs
          cases g with
          | none => simp [hm] at hs
          | some gv =>
              have hd : d = [] := by
                have := extract_some_no_diag row "EPS Growth Rate (%)" "PEG"
                  (v := gv) (by rw [he])
                rw [he] at this
                exact this
              simp only [dictFind_dictSet_self] at hs
              cases hval : (safe_divide (some pe) (some gv)
                  (some "PEG: Growth rate is zero or missing")).1 with
              | none => rw [hval] at hs; simp at hs
              | some w =>
                  have hd2 := safe_divide_some_no_diag (some pe) (some gv)
                    (some "PEG: Growth rate is zero or missing") hval
                  subst hd
                  simp [hd2]

/-! ### Finiteness lemmas -/

theorem dictFind_mem {α : Type} {k : String} {row : List (String × α)}
    {c : α} (h : dictFind k row = some c) : (k, c) ∈ row := by
  induction row with
  | nil => simp [dictFind] at h
  | cons p rest ih =>
      obtain ⟨k', v⟩ := p
      by_cases hk : k' = k
      · subst hk
        simp [dictFind] at h
        simp [h]
      · simp [dictFind, hk] at h
        exact List.mem_cons_of_mem _ (ih h)

theorem extract_finite {row : Row} (hrow : rowOk row = true)
    (key c : String) {v : PyFloat}
    (h : (extract_float row key c).1 = some v) : v.isFinite = true := by
  cases hf : dictFind key row with
  | none => simp [extract_float, hf] at h
  | some cell =>
      have hc : cellOk cell = true := by
        have hmem := dictFind_mem hf
        have := (List.all_eq_true.mp hrow) _ hmem
        exact this
      cases cell with
      | num f =>
          by_cases hn : f.isNan
          · simp [extract_float, hf, hn] at h
          · simp [extract_float, hf, hn] at h
            subst h
            cases f with
            | finite q => rfl
            | npNan => simp [PyFloat.isNan] at hn
            | otherNan => simp [PyFloat.isNan] at hn
            | inf => simp [cellOk] at hc
            | ninf => simp [cellOk] at hc
      | strNum f =>
          simp [extract_float, hf] at h
          cases f with
          | finite q => subst h; rfl
          | npNan => simp [cellOk] at hc
          | otherNan => simp [cellOk] at hc
          | inf => simp [cellOk] at hc
          | ninf => simp [cellOk] at hc
      | strBad e => simp [extract_float, hf] at h

theorem safe_divide_finite {x y : PyFloat} (e : Option String)
    (hx : x.isFinite = true) (hy : y.isFinite = true) {v : PyFloat}
    (h : (safe_divide (some x) (some y) e).1 = some v) :
    v.isFinite = true := by
  by_cases ht : denomTrapped (some y) = true
  · simp [safe_divide, ht] at h
  · cases y with
    | finite q =>
        have hq : ¬ q = 0 := by simpa [denomTrapped] using ht
        cases x with
        | finite p =>
            simp [safe_divide, ht, pyDivExc, hq] at h
            subst h
            rfl
        | npNan => simp [PyFloat.isFinite] at hx
        | otherNan => simp [PyFloat.isFinite] at hx
        | inf => simp [PyFloat.isFinite] at hx
        | ninf => simp [PyFloat.isFinite] at hx
    | npNan => simp [PyFloat.isFinite] at hy
    | otherNan => simp [PyFloat.isFinite] at hy
    | inf => simp [PyFloat.isFinite] at hy
    | ninf => simp [PyFloat.isFinite] at hy

theorem pyMul100_finite {v : PyFloat} (h : v.isFinite = true) :
    (pyMul100 v).isFinite = true := by
  cases v <;> simp_all [pyMul100, PyFloat.isFinite]

theorem pySub_finite {a b : PyFloat} (ha : a.isFinite = true)
    (hb : b.isFinite = true) : (pySub a b).isFinite = true := by
  cases a <;> cases b <;> simp_all [pySub, PyFloat.isFinite]

theorem MetricsFinite_dictSet {m : Metrics} {key : String}
    {v : Option PyFloat} (hm : MetricsFinite m)
    (hv : ∀ w, v = some w → w.isFinite = true) :
    MetricsFinite (dictSet m key v) := by
  intro k u h
  by_cases hk : k = key
  · subst hk
    rw [dictFind_dictSet_self] at h
    exact hv u (by injection h)
  · rw [dictFind_dictSet_ne _ _ hk] at h
    exact hm k u h

theorem pyGet_some {m : Metrics} {k : String} {v : PyFloat}
    (h : pyGet m k = some v) : dictFind k m = some (some v) := by
  unfold pyGet at h
  cases hf : dictFind k m with
  | none => rw [hf] at h; simp at h
  | some o => rw [hf] at h; simp at h; rw [h]

theorem priceStep_finite {name key ctx note : String} {row : Row}
    {price : PyFloat} {st : Metrics × Diag} (hrow : rowOk row = true)
    (hp : price.isFinite = true) (hm : MetricsFinite st.1) :
    MetricsFinite (priceStep name key ctx note row price st).1 := by
  unfold priceStep
  cases he : extract_float row key ctx with
  | mk a d =>
      cases a with
      | none => simpa using hm
      | some x =>
          have hx : x.isFinite = true :=
            extract_finite hrow key ctx (by rw [he])
          simp only
          exact MetricsFinite_dictSet hm fun w hw =>
            safe_divide_finite (some note) hp hx hw

theorem pairStep_finite {name k1 k2 ctx note : String}
    {fn fd : PyFloat → PyFloat → PyFloat} {scale : Bool} {row : Row}
    {st : Metrics × Diag}
    (hfn : ∀ a b, a.isFinite = true → b.isFinite = true →
      (fn a b).isFinite = true)
    (hfd : ∀ a b, a.isFinite = true → b.isFinite = true →
      (fd a b).isFinite = true)
    (hrow : rowOk row = true) (hm : MetricsFinite st.1) :
    MetricsFinite (pairStep name k1 k2 ctx note fn fd scale row st).1 := by
  unfold pairStep
  cases he1 : extract_float row k1 ctx with
  | mk a d1 =>
      cases he2 : extract_float row k2 ctx with
      | mk b d2 =>
          cases a with
          | none => cases b <;> simpa using hm
          | some x =>
              cases b with
              | none => simpa using hm
              | some y =>
                  have hx : x.isFinite = true :=
                    extract_finite hrow k1 ctx (by rw [he1])
                  have hy : y.isFinite = true :=
                    extract_finite hrow k2 ctx (by rw [he2])
                  simp only
                  apply MetricsFinite_dictSet hm
                  intro w hw
                  cases scale with
                  | false =>
                      simp at hw
                      exact safe_divide_finite (some note) (hfn x y hx hy)
                        (hfd x y hx hy) hw
                  | true =>
                      simp [Option.map_eq_some'] at hw
                      obtain ⟨u, hu, huw⟩ := hw
                      subst huw
                      exact pyMul100_finite
                        (safe_divide_finite (some note) (hfn x y hx hy)
                          (hfd x y hx hy) hu)

theorem compute_peg_finite {row : Row} {st : Metrics × Diag}
    (hrow : rowOk row = true) (hm : MetricsFinite st.1) :
    MetricsFinite (compute_peg row st).1 := by
  unfold compute_peg
  cases hp : pyGet st.1 "P/E Ratio" with
  | none =>
      cases he : extract_float row "EPS Growth Rate (%)" "PEG" with
      | mk g d => cases g <;> simpa using hm
  | some pe =>
      cases he : extract_float row "EPS Growth Rate (%)" "PEG" with
      | mk g d =>
          cases g with
          | none => simpa using hm
          | some gv =>
              have hpe : pe.isFinite = true :=
                hm _ _ (pyGet_some hp)
              have hg : gv.isFinite = true :=
                extract_finite hrow "EPS Growth Rate (%)" "PEG" (by rw [he])
              simp only
              exact MetricsFinite_dictSet hm fun w hw =>
                safe_divide_finite _ hpe hg hw

/-! ### Pipeline preservation lemmas -/

theorem tail7_find {row : Row} {st : Metrics × Diag} {k : String}
    (h1 : k ≠ "Gross Profit Margin (%)") (h2 : k ≠ "Operating Margin (%)")
    (h3 : k ≠ "Net Profit Margin (%)") (h4 : k ≠ "Current Ratio")
    (h5 : k ≠ "Debt to Equity Ratio") (h6 : k ≠ "Return on Equity (%)")
    (h7 : k ≠ "Return on Assets (%)") :
    dictFind k (compute_roa row (compute_roe row (compute_debt_to_equity row
      (compute_current row (compute_net_margin row
        (compute_operating_margin row
          (compute_gross_margin row st))))))).1 = dictFind k st.1 := by
  simp only [compute_roa, compute_roe, compute_debt_to_equity,
    compute_current, compute_net_margin, compute_operating_margin,
    compute_gross_margin]
  rw [pairStep_find_ne h7, pairStep_find_ne h6, pairStep_find_ne h5,
    pairStep_find_ne h4, pairStep_find_ne h3, pairStep_find_ne h2,
    pairStep_find_ne h1]

theorem computeSteps_find {row : Row} {price : PyFloat}
    {st : Metrics × Diag} {k : String}
    (h1 : k ≠ "P/E Ratio") (h2 : k ≠ "P/B Ratio") (h3 : k ≠ "P/S Ratio")
    (h4 : k ≠ "PEG Ratio") (h5 : k ≠ "Gross Profit Margin (%)")
    (h6 : k ≠ "Operating Margin (%)") (h7 : k ≠ "Net Profit Margin (%)")
    (h8 : k ≠ "Current Ratio") (h9 : k ≠ "Debt to Equity Ratio")
    (h10 : k ≠ "Return on Equity (%)") (h11 : k ≠ "Return on Assets (%)") :
    dictFind k (computeSteps row price st).1 = dictFind k st.1 := by
  unfold computeSteps
  rw [tail7_find h5 h6 h7 h8 h9 h10 h11, compute_peg_find_ne h4,
    compute_ps, priceStep_find_ne h3, compute_pb, priceStep_find_ne h2,
    compute_pe, priceStep_find_ne h1]

theorem runRow_pe_find (row : Row) (price : PyFloat) :
    dictFind "P/E Ratio" (runRow row price).1 =
      dictFind "P/E Ratio" (compute_ps row price (compute_pb row price
        (compute_pe row price (initMetrics price, [])))).1 := by
  unfold runRow computeSteps
  rw [tail7_find (by decide) (by decide) (by decide) (by decide) (by decide)
    (by decide) (by decide), compute_peg_find_ne (by decide)]

theorem runRow_peg_none {row : Row} {price : PyFloat}
    (h : pyGet (compute_ps row price (compute_pb row price
        (compute_pe row price (initMetrics price, [])))).1 "P/E Ratio" =
        none ∨
      (extract_float row "EPS Growth Rate (%)" "PEG").1 = none) :
    pyGet (runRow row price).1 "PEG Ratio" = none := by
  unfold runRow computeSteps pyGet
  rw [tail7_find (by decide) (by decide) (by decide) (by decide) (by decide)
    (by decide) (by decide), compute_peg_skip h]
  simp only
  rw [compute_ps, priceStep_find_ne (by decide), compute_pb,
    priceStep_find_ne (by decide), compute_pe, priceStep_find_ne (by decide)]
  simp [initMetrics, dictFind]

theorem computeSteps_log_len (row : Row) (price : PyFloat)
    (st : Metrics × Diag) :
    (computeSteps row price st).2.length ≤ st.2.length + 18 := by
  unfold computeSteps
  set t1 := compute_pe row price st with h1
  set t2 := compute_pb row price t1 with h2
  set t3 := compute_ps row price t2 with h3
  set t4 := compute_peg row t3 with h4
  set t5 := compute_gross_margin row t4 with h5
  set t6 := compute_operating_margin row t5 with h6
  set t7 := compute_net_margin row t6 with h7
  set t8 := compute_current row t7 with h8
  set t9 := compute_debt_to_equity row t8 with h9
  set t10 := compute_roe row t9 with h10
  have b1 : t1.2.length ≤ st.2.length + 1 := by
    rw [h1, compute_pe]; exact priceStep_log_len
  have b2 : t2.2.length ≤ t1.2.length + 1 := by
    rw [h2, compute_pb]; exact priceStep_log_len
  have b3 : t3.2.length ≤ t2.2.length + 1 := by
    rw [h3, compute_ps]; exact priceStep_log_len
  have b4 : t4.2.length ≤ t3.2.length + 1 := by
    rw [h4]; exact compute_peg_log_len
  have b5 : t5.2.length ≤ t4.2.length + 2 := by
    rw [h5, compute_gross_margin]; exact pairStep_log_len
  have b6 : t6.2.length ≤ t5.2.length + 2 := by
    rw [h6, compute_operating_margin]; exact pairStep_log_len
  have b7 : t7.2.length ≤ t6.2.length + 2 := by
    rw [h7, compute_net_margin]; exact pairStep_log_len
  have b8 : t8.2.length ≤ t7.2.length + 2 := by
    rw [h8, compute_current]; exact pairStep_log_len
  have b9 : t9.2.length ≤ t8.2.length + 2 := by
    rw [h9, compute_debt_to_equity]; exact pairStep_log_len
  have b10 : t10.2.length ≤ t9.2.length + 2 := by
    rw [h10, compute_roe]; exact pairStep_log_len
  have b11 : (compute_roa row t10).2.length ≤ t10.2.length + 2 := by
    rw [compute_roa]; exact pairStep_log_len
  omega

/-! ### Claim theorems -/

/-- Claim C3 (code evaluated at the failing input): a NaN denominator that is
not the `np.nan` singleton object escapes the `denom in (0, np.nan, None)`
guard, so `safe_divide` returns a NaN result and appends nothing, instead of
returning unavailable with the failure note as the claim states. -/
theorem safe_divide_nan_denominator :
    safe_divide (some (PyFloat.finite 1)) (some PyFloat.otherNan)
      (some "P/E: EPS is zero or missing") =
      (some PyFloat.otherNan, []) := rfl

/-- Claim C7 (confirmed): one press of the Compute button resets the global
error_log and rebuilds the FinanceMetrics object, so the result of a run is
independent of any diagnostic state carried over from previous runs —
running twice with identical (record, price) yields identical MetricSet and
identical diagnostic list both times. -/
theorem button_rerun (d : Data) (price : PyFloat) (g g' : Diag) :
    buttonRun d price g = buttonRun d price g' := rfl

/-- Claim C2 counterexample: on an entirely empty record, a field extraction
returns unavailable with NO diagnostic (the claim requires one entry per
attempted extraction), and a whole engine run over the empty record at price
12.5 leaves the diagnostic log empty. -/
theorem extract_silent_cex :
    extract_float [] "EPS" "P/E" = (none, []) ∧
    (runRow [] (PyFloat.finite (25 / 2))).2 = [] := ⟨rfl, rfl⟩

/-- Claim C2 (amended): `extract_float` returns unavailable silently when the
field is absent or a NaN numeric (`pd.isna` path); it appends exactly one
diagnostic — "{ctx}: Could not parse '{key}': {exc}" — only when `float()`
raises on a string cell. -/
theorem extract_behavior (row : Row) (key c : String) :
    (dictFind key row = none → extract_float row key c = (none, [])) ∧
    (∀ f, dictFind key row = some (Cell.num f) → f.isNan = true →
      extract_float row key c = (none, [])) ∧
    (∀ e, dictFind key row = some (Cell.strBad e) →
      extract_float row key c =
        (none, [c ++ ": Could not parse '" ++ key ++ "': " ++ e])) := by
  refine ⟨fun h => ?_, fun f h hn => ?_, fun e h => ?_⟩ <;>
    simp [extract_float, h, *]

theorem extract_behavior_witness :
    dictFind "EPS" ([] : Row) = none ∧
    extract_float [] "EPS" "P/E" = (none, []) :=
  ⟨rfl, (extract_behavior [] "EPS" "P/E").1 rfl⟩

/-- Claim C4 counterexample: on an empty DataFrame (a shape the engine
boundary accepts) `data_row` raises IndexError inside the first metric
method, so `compute` raises to its caller. -/
theorem compute_raises_cex :
    FinanceMetrics.compute (Data.frame []) (PyFloat.finite 1) [] =
      Except.error msgIloc := rfl

/-- Claim C4 (amended): provided the record has a first row (a dict, or a
DataFrame with at least one row), `compute` returns normally for every
record and price — every exceptional condition inside the metric
computations is caught locally and converted to omission/None plus
diagnostics; only `data_row` on an empty DataFrame raises. -/
theorem compute_no_raise (d : Data) (price : PyFloat) (g : Diag)
    (h : data_row d ≠ none) :
    ∃ m l, FinanceMetrics.compute d price g = Except.ok (m, l) := by
  cases hd : data_row d with
  | none => exact absurd hd h
  | some row =>
      exact ⟨(computeSteps row price (initMetrics price, g)).1,
        (computeSteps row price (initMetrics price, g)).2,
        by simp [FinanceMetrics.compute, hd]⟩

theorem compute_no_raise_witness :
    data_row (Data.dict []) ≠ none ∧
    ∃ m l, FinanceMetrics.compute (Data.dict []) (PyFloat.finite 1) [] =
      Except.ok (m, l) :=
  ⟨by simp [data_row], compute_no_raise _ _ _ (by simp [data_row])⟩

/-- Claim C1 counterexample: on an entirely empty record at price 12.5 the
metrics dict holds only "Market Price" — "P/E Ratio" (and every other
metric) is absent as a key, not present marked unavailable. -/
theorem metrics_omit_cex :
    (runRow [] (PyFloat.finite (25 / 2))).1 =
      [("Market Price", some (PyFloat.finite (25 / 2)))] ∧
    dictFind "P/E Ratio" (runRow [] (PyFloat.finite (25 / 2))).1 = none :=
  ⟨rfl, rfl⟩

set_option maxHeartbeats 2000000 in
/-- Claim C1 (amended): "Market Price" is always present with the raw input
price, but a metric whose required field extraction fails is omitted from
the metrics mapping entirely rather than appearing marked unavailable; on an
entirely empty record the output holds only "Market Price" and no
diagnostics. -/
theorem metric_presence (row : Row) (price : PyFloat) :
    runRow [] price = ([("Market Price", some price)], []) ∧
    dictFind "Market Price" (runRow row price).1 = some (some price) ∧
    ((extract_float row "EPS" "P/E").1 = none →
      dictFind "P/E Ratio" (runRow row price).1 = none) := by
  refine ⟨rfl, ?_, fun h => ?_⟩
  · unfold runRow
    rw [computeSteps_find (by decide) (by decide) (by decide) (by decide)
      (by decide) (by decide) (by decide) (by decide) (by decide) (by decide)
      (by decide)]
    simp [initMetrics, dictFind]
  · unfold runRow computeSteps
    rw [tail7_find (by decide) (by decide) (by decide) (by decide)
      (by decide) (by decide) (by decide), compute_peg_find_ne (by decide),
      compute_ps, priceStep_find_ne (by decide), compute_pb,
      priceStep_find_ne (by decide), compute_pe, priceStep_skip h]
    simp [initMetrics, dictFind]

theorem metric_presence_witness :
    (extract_float [("Revenue", Cell.num (PyFloat.finite 5))]
      "EPS" "P/E").1 = none ∧
    dictFind "P/E Ratio" (runRow [("Revenue", Cell.num (PyFloat.finite 5))]
      (PyFloat.finite 3)).1 = none :=
  ⟨rfl, (metric_presence [("Revenue", Cell.num (PyFloat.finite 5))]
    (PyFloat.finite 3)).2.2 rfl⟩

/-- Claim C5 (confirmed): the PEG step reads the stored "P/E Ratio" metric
via `self.metrics.get` (the embedding `compute_peg` never touches the EPS
field), so PEG is unavailable in the output whenever the P/E result is
unavailable or the growth-field extraction fails; in particular a missing
EPS field makes PEG unavailable regardless of the growth field. -/
theorem peg_depends (row : Row) (price : PyFloat) :
    ((pyGet (runRow row price).1 "P/E Ratio" = none ∨
        (extract_float row "EPS Growth Rate (%)" "PEG").1 = none) →
      pyGet (runRow row price).1 "PEG Ratio" = none) ∧
    (dictFind "EPS" row = none →
      pyGet (runRow row price).1 "PEG Ratio" = none) := by
  constructor
  · intro h
    apply runRow_peg_none
    rcases h with h | h
    · left
      unfold pyGet at h ⊢
      rw [← runRow_pe_find row price]
      exact h
    · right
      exact h
  · intro h
    apply runRow_peg_none
    left
    have hext : (extract_float row "EPS" "P/E").1 = none := by
      simp [extract_float, h]
    unfold pyGet
    rw [compute_ps, priceStep_find_ne (by decide), compute_pb,
      priceStep_find_ne (by decide), compute_pe, priceStep_skip hext]
    simp [initMetrics, dictFind]

theorem peg_depends_witness :
    pyGet (runRow [] (PyFloat.finite 1)).1 "P/E Ratio" = none ∧
    pyGet (runRow [] (PyFloat.finite 1)).1 "PEG Ratio" = none :=
  ⟨rfl, (peg_depends [] (PyFloat.finite 1)).1 (Or.inl rfl)⟩

/-- Claim C8 counterexample: with EPS absent (P/E unavailable, upstream
producing zero diagnostics) and an unparseable growth cell, the PEG step
appends one diagnostic of its own — the growth-field extraction runs before
the dependency check. -/
theorem peg_extra_diag_cex :
    pyGet (runRow [("EPS Growth Rate (%)",
        Cell.strBad "could not convert string to float: 'abc'")]
      (PyFloat.finite 10)).1 "P/E Ratio" = none ∧
    (runRow [("EPS Growth Rate (%)",
        Cell.strBad "could not convert string to float: 'abc'")]
      (PyFloat.finite 10)).2 =
      ["PEG: Could not parse 'EPS Growth Rate (%)': could not convert string to float: 'abc'"] :=
  ⟨rfl, rfl⟩

/-- Claim C8 (amended): when the P/E result is unavailable, the PEG step
appends no division diagnostic — the only entries it can add are those of
the growth-field extraction itself, which runs before the dependency check
(and which are empty unless the growth cell is an unparseable string). -/
theorem peg_diag_upstream (row : Row) (st : Metrics × Diag)
    (h : pyGet st.1 "P/E Ratio" = none) :
    (compute_peg row st).2 =
      st.2 ++ (extract_float row "EPS Growth Rate (%)" "PEG").2 := by
  rw [compute_peg_skip (Or.inl h)]

theorem peg_diag_upstream_witness :
    pyGet [("Market Price", some (PyFloat.finite 1))] "P/E Ratio" = none ∧
    (compute_peg [] ([("Market Price", some (PyFloat.finite 1))], [])).2 =
      [] ++ (extract_float [] "EPS Growth Rate (%)" "PEG").2 :=
  ⟨rfl, peg_diag_upstream [] ([("Market Price", some (PyFloat.finite 1))],
    []) rfl⟩

/-- Claim C9 counterexample: a record in which every one of the 14 catalog
fields is an unparseable string makes one run append 18 diagnostics (one
per field-extraction attempt; Revenue and Net Income are re-extracted by
three metrics each), exceeding the claimed bound of 11. -/
theorem diag_count_cex :
    11 < (runRow [("EPS", Cell.strBad "x"),
      ("Book Value Per Share", Cell.strBad "x"),
      ("Revenue Per Share", Cell.strBad "x"),
      ("EPS Growth Rate (%)", Cell.strBad "x"),
      ("Revenue", Cell.strBad "x"), ("COGS", Cell.strBad "x"),
      ("Operating Income", Cell.strBad "x"),
      ("Net Income", Cell.strBad "x"),
      ("Current Assets", Cell.strBad "x"),
      ("Current Liabilities", Cell.strBad "x"),
      ("Total Debt", Cell.strBad "x"), ("Total Equity", Cell.strBad "x"),
      ("Average Shareholders Equity", Cell.strBad "x"),
      ("Average Total Assets", Cell.strBad "x")]
      (PyFloat.finite 1)).2.length := by decide

/-- Claim C9 (amended): one run appends at most 18 diagnostic entries — one
per field-extraction attempt (seven metrics extract two fields each, four
extract one) — and a metric step that succeeds (stores a non-None value
under its own, previously absent, name) appends nothing, for each of the
three step shapes instantiated by the eleven metrics. -/
theorem diag_bound (row : Row) (price : PyFloat) :
    (runRow row price).2.length ≤ 18 ∧
    (∀ (name key ctx note : String) (st : Metrics × Diag) (v : PyFloat),
      dictFind name st.1 = none →
      dictFind name (priceStep name key ctx note row price st).1 =
        some (some v) →
      (priceStep name key ctx note row price st).2 = st.2) ∧
    (∀ (name k1 k2 ctx note : String)
        (fn fd : PyFloat → PyFloat → PyFloat) (scale : Bool)
        (st : Metrics × Diag) (v : PyFloat),
      dictFind name st.1 = none →
      dictFind name (pairStep name k1 k2 ctx note fn fd scale row st).1 =
        some (some v) →
      (pairStep name k1 k2 ctx note fn fd scale row st).2 = st.2) ∧
    (∀ (st : Metrics × Diag) (v : PyFloat),
      dictFind "PEG Ratio" st.1 = none →
      dictFind "PEG Ratio" (compute_peg row st).1 = some (some v) →
      (compute_peg row st).2 = st.2) := by
  refine ⟨?_, ?_, ?_, ?_⟩
  · simpa using computeSteps_log_len row price (initMetrics price, [])
  · intro name key ctx note st v hm hs
    exact priceStep_success hm hs
  · intro name k1 k2 ctx note fn fd scale st v hm hs
    exact pairStep_success hm hs
  · intro st v hm hs
    exact compute_peg_success hm hs

theorem diag_bound_witness :
    dictFind "P/E Ratio"
      ([("Market Price", some (PyFloat.finite 10))] : Metrics) = none ∧
    dictFind "P/E Ratio" (priceStep "P/E Ratio" "EPS" "P/E" "note"
      [("EPS", Cell.num (PyFloat.finite 2))] (PyFloat.finite 10)
      ([("Market Price", some (PyFloat.finite 10))], [])).1 =
      some (some (PyFloat.finite (10 / 2))) ∧
    (priceStep "P/E Ratio" "EPS" "P/E" "note"
      [("EPS", Cell.num (PyFloat.finite 2))] (PyFloat.finite 10)
      ([("Market Price", some (PyFloat.finite 10))], [])).2 = [] :=
  ⟨rfl, rfl,
    (diag_bound [("EPS", Cell.num (PyFloat.finite 2))]
      (PyFloat.finite 10)).2.1 "P/E Ratio" "EPS" "P/E" "note"
      ([("Market Price", some (PyFloat.finite 10))], [])
      (PyFloat.finite (10 / 2)) rfl rfl⟩

/-- Claim C6 counterexample: an infinite "Operating Income" cell passes
straight through `extract_float` (`pd.isna` is false on inf), and the
division stores an infinite Operating Margin in the MetricSet instead of
collapsing it to unavailable. -/
theorem nonfinite_metric_cex :
    dictFind "Operating Margin (%)" (runRow
      [("Operating Income", Cell.num PyFloat.inf),
       ("Revenue", Cell.num (PyFloat.finite 2))] (PyFloat.finite 1)).1 =
      some (some PyFloat.inf) := rfl

/-- Claim C6 (amended): every metric value present in the MetricSet is
finite provided the market price is finite and no record cell is an
infinite numeric or a string coercing to NaN or infinity (NaN numerics are
filtered by `pd.isna`, unparseable strings become unavailable); such
non-finite cells are NOT collapsed to unavailable and propagate into the
stored metric values. -/
theorem metrics_finite_of_rowOk (row : Row) (price : PyFloat)
    (hrow : rowOk row = true) (hp : price.isFinite = true) :
    MetricsFinite (runRow row price).1 := by
  unfold runRow computeSteps
  apply pairStep_finite (fun a b ha hb => ha) (fun a b ha hb => hb) hrow
  apply pairStep_finite (fun a b ha hb => ha) (fun a b ha hb => hb) hrow
  apply pairStep_finite (fun a b ha hb => ha) (fun a b ha hb => hb) hrow
  apply pairStep_finite (fun a b ha hb => ha) (fun a b ha hb => hb) hrow
  apply pairStep_finite (fun a b ha hb => ha) (fun a b ha hb => hb) hrow
  apply pairStep_finite (fun a b ha hb => ha) (fun a b ha hb => hb) hrow
  apply pairStep_finite (fun a b ha hb => pySub_finite ha hb)
    (fun a b ha hb => ha) hrow
  apply compute_peg_finite hrow
  apply priceStep_finite hrow hp
  apply priceStep_finite hrow hp
  apply priceStep_finite hrow hp
  intro k v h
  by_cases hk : "Market Price" = k
  · simp [initMetrics, dictFind, hk] at h
    subst h
    exact hp
  · simp [initMetrics, dictFind, hk] at h

theorem metrics_finite_witness :
    rowOk [("EPS", Cell.num (PyFloat.finite 2))] = true ∧
    MetricsFinite (runRow [("EPS", Cell.num (PyFloat.finite 2))]
      (PyFloat.finite 10)).1 :=
  ⟨rfl, metrics_finite_of_rowOk _ _ rfl rfl⟩

/-- Claim C10 (confirmed): the output uses two distinct representations of
"unavailable" — a metric whose field extraction fails is wholly absent as a
key from the metrics dict (shown for P/B), whereas a present field equal to
zero yields a present key with value None; the text report prints one line
per present key, rendering a present None as the "N/A" sentinel (absent
keys produce no line at all). -/
theorem dual_unavailable (row : Row) (price : PyFloat) :
    ((extract_float row "Book Value Per Share" "P/B").1 = none →
      dictFind "P/B Ratio" (runRow row price).1 = none) ∧
    (dictFind "Book Value Per Share" row =
        some (Cell.num (PyFloat.finite 0)) →
      dictFind "P/B Ratio" (runRow row price).1 = some none) ∧
    (∀ k : String, reportLine (k, none) = k ++ ": N/A") ∧
    (∀ m : Metrics, (reportLines m).length = m.length) := by
  refine ⟨fun h => ?_, fun h => ?_, fun k => rfl, fun m => by
    simp [reportLines]⟩
  · unfold runRow computeSteps
    rw [tail7_find (by decide) (by decide) (by decide) (by decide)
      (by decide) (by decide) (by decide), compute_peg_find_ne (by decide),
      compute_ps, priceStep_find_ne (by decide), compute_pb,
      priceStep_skip h]
    simp only
    rw [compute_pe, priceStep_find_ne (by decide)]
    simp [initMetrics, dictFind]
  · have hext : extract_float row "Book Value Per Share" "P/B" =
        (some (PyFloat.finite 0), []) := by
      simp [extract_float, h, PyFloat.isNan]
    have hdiv : (safe_divide (some price) (some (PyFloat.finite 0))
        (some "P/B: Book Value Per Share is zero or missing")).1 = none := by
      simp [safe_divide, denomTrapped]
    unfold runRow computeSteps
    rw [tail7_find (by decide) (by decide) (by decide) (by decide)
      (by decide) (by decide) (by decide), compute_peg_find_ne (by decide),
      compute_ps, priceStep_find_ne (by decide), compute_pb]
    unfold priceStep
    rw [hext]
    simp only
    rw [hdiv]
    exact dictFind_dictSet_self _ _ _

theorem dual_unavailable_witness :
    (extract_float [] "Book Value Per Share" "P/B").1 = none ∧
    dictFind "P/B Ratio" (runRow [] (PyFloat.finite 1)).1 = none :=
  ⟨rfl, (dual_unavailable [] (PyFloat.finite 1)).1 rfl⟩
